import Mathlib

/-!
Shallow embedding of the wave-counting pipeline of src/app.py
(function count_ocean_waves_web, lines 24-116).

The per-frame analysis produces, for each frame, the list of external
contours of the processed foreground mask together with the wall-clock
value that time.time() would return while that frame is handled; the
state-machine logic of lines 97-113 consumes the resulting boolean
signal.  Frames are abstracted to that data; the mask-level part of the
pipeline (lines 73-79) is embedded separately below for the claims that
concern it.
-/

/-- The loop-local detector variables of count_ocean_waves_web
(lines 59-65): wave_state (0 = WAITING, 1 = COUNTING), wave_count,
last_wave_time (seconds, initialised to 0) and
frames_since_last_detection. -/
structure DetectorState where
  wave_state : Nat
  wave_count : Nat
  last_wave_time : ℚ
  frames_since_last_detection : Nat
deriving DecidableEq, Repr

/-- Line 61: cooldown = 1.0 seconds. -/
def cooldown : ℚ := 1

/-- Line 64: debounce_frames = 10. -/
def debounce_frames : Nat := 10

/-- Lines 59-65: initial values of the detector variables. -/
def initState : DetectorState :=
  { wave_state := 0, wave_count := 0, last_wave_time := 0,
    frames_since_last_detection := 0 }

/-- One execution of the state-machine logic of lines 97-113.  signal is
wave_detected_in_region for the current frame; now is the value
time.time() returns on this frame (it is only consulted in the WAITING
branch, exactly as in the source). -/
def waveStep (s : DetectorState) (signal : Bool) (now : ℚ) : DetectorState :=
  if s.wave_state = 0 then
    if signal then
      if now - s.last_wave_time > cooldown then
        { wave_state := 1, wave_count := s.wave_count + 1,
          last_wave_time := now, frames_since_last_detection := 0 }
      else s
    else s
  else if s.wave_state = 1 then
    if !signal then
      let f := s.frames_since_last_detection + 1
      if f ≥ debounce_frames then
        { s with wave_state := 0, frames_since_last_detection := f }
      else
        { s with frames_since_last_detection := f }
    else
      { s with frames_since_last_detection := 0 }
  else s

/-- The frame loop of lines 67-113 restricted to the detector: fold
waveStep over the per-frame (signal, time) pairs, starting from a given
state. -/
def runDetectorFrom (s : DetectorState) (l : List (Bool × ℚ)) : DetectorState :=
  l.foldl (fun s p => waveStep s p.1 p.2) s

/-- The frame loop started from the initial detector state. -/
def runDetector (l : List (Bool × ℚ)) : DetectorState :=
  runDetectorFrom initState l

/-- A contour as consumed by lines 82-95: its area (cv2.contourArea) and
its bounding rectangle x, y, w, h (cv2.boundingRect). -/
structure Contour where
  area : ℚ
  x : Nat
  y : Nat
  w : Nat
  h : Nat
deriving DecidableEq, Repr

/-- Lines 82-89: a contour survives the size filter unless its area is
below 1000 (line 84) or its bounding-box width is below 50 (line 88);
the two continue statements are the two false branches. -/
def passesFilter (c : Contour) : Bool :=
  if c.area < 1000 then false
  else if c.w < 50 then false
  else true

/-- Line 52: ROI_TOP = int(frame_height * 0.55); Python int() truncates
the nonnegative product, which is floor, embedded as Nat division. -/
def ROI_TOP (frame_height : Nat) : Nat := frame_height * 55 / 100

/-- Line 54: COUNT_ZONE_TOP = int(frame_height * 0.65). -/
def COUNT_ZONE_TOP (frame_height : Nat) : Nat := frame_height * 65 / 100

/-- Line 55: COUNT_ZONE_BOTTOM = int(frame_height * 0.70). -/
def COUNT_ZONE_BOTTOM (frame_height : Nat) : Nat := frame_height * 70 / 100

/-- Lines 80-95: wave_detected_in_region is set when some contour passes
the size filter and the vertical center of its bounding box, shifted by
ROI_TOP (lines 91-92), lies inside the counting zone (line 94). -/
def wave_detected_in_region (frame_height : Nat) (contours : List Contour) : Bool :=
  contours.any fun c =>
    passesFilter c &&
      (decide (COUNT_ZONE_TOP frame_height ≤ ROI_TOP frame_height + (c.y + c.h / 2)) &&
       decide (ROI_TOP frame_height + (c.y + c.h / 2) ≤ COUNT_ZONE_BOTTOM frame_height))

/-- count_ocean_waves_web (lines 24-116).  none models a path for which
cap.isOpened() is false, in which case the function returns -1
(lines 37-39); otherwise the input is the finite frame sequence, each
frame abstracted to the contour list its processed mask yields together
with the wall-clock time at that frame, and the function returns the
final wave_count (line 116). -/
def count_ocean_waves_web (frame_height : Nat)
    (video : Option (List (List Contour × ℚ))) : Int :=
  match video with
  | none => -1
  | some frames =>
      ((frames.foldl
          (fun s fr => waveStep s (wave_detected_in_region frame_height fr.1) fr.2)
          initState).wave_count : Int)

/-- A contour that, at frame height 100, passes the size filter and has
its bounding-box center inside the counting zone (full center row
55 + 8 + 3 = 66, zone 65..70). -/
def demoBlob : Contour := { area := 5000, x := 0, y := 8, w := 300, h := 6 }

/-- Eleven frames with no contours, all observed at wall-clock time 100. -/
def gapFrames : List (List Contour × ℚ) := List.replicate 11 ([], 100)

/-- A run in which the blob is present for one frame, absent for eleven
frames, then present again, with all frames processed at wall-clock
time 100 (fast processing). -/
def framesFast : List (List Contour × ℚ) :=
  ([demoBlob], 100) :: gapFrames ++ [([demoBlob], 100)]

/-- The same frame content as framesFast, but with the final frame
processed at wall-clock time 102 (slow processing). -/
def framesSlow : List (List Contour × ℚ) :=
  ([demoBlob], 100) :: gapFrames ++ [([demoBlob], 102)]

/-- Invariant maintained by the detector loop: the debounce counter
never exceeds debounce_frames, and while in COUNTING it stays strictly
below it (it is reset on detected frames and the state leaves COUNTING
as soon as the counter reaches debounce_frames). -/
def stateInv (s : DetectorState) : Prop :=
  s.frames_since_last_detection ≤ debounce_frames ∧
  (s.wave_state = 1 → s.frames_since_last_detection < debounce_frames)

/-- Number of nonzero kernel columns to each side of the center in a row
of cv2.getStructuringElement(cv2.MORPH_ELLIPSE, (7, 7)) at vertical
offset dy from the anchor: 0 at the extreme rows, 2 one row in, 3 in
the five middle rows (the rounded ellipse half-widths). -/
def halfWidth (dy : Int) : Nat :=
  if dy.natAbs = 3 then 0 else if dy.natAbs = 2 then 2 else 3

/-- The 7 x 7 elliptical structuring element of line 75 as the list of
(dy, dx) offsets of its nonzero cells relative to the (3, 3) anchor. -/
def kernel7 : List (Int × Int) :=
  (List.range 7).flatMap fun i =>
    (List.range 7).filterMap fun j =>
      let dy : Int := (i : Int) - 3
      let dx : Int := (j : Int) - 3
      if dx.natAbs ≤ halfWidth dy then some (dy, dx) else none

/-- A grey-valued mask of given dimensions, as produced by fgbg.apply on
the ROI (line 73): MOG2 with detectShadows=True emits 0 (background),
127 (shadow) and 255 (foreground).  Values of val outside the h x w
rectangle are never consulted. -/
structure Mask where
  h : Nat
  w : Nat
  val : Int → Int → Nat

/-- Pixel (y, x) lies inside the mask rectangle. -/
def inBounds (m : Mask) (y x : Int) : Prop :=
  0 ≤ y ∧ y < (m.h : Int) ∧ 0 ≤ x ∧ x < (m.w : Int)

instance (m : Mask) (y x : Int) : Decidable (inBounds m y x) :=
  inferInstanceAs
    (Decidable (0 ≤ y ∧ y < (m.h : Int) ∧ 0 ≤ x ∧ x < (m.w : Int)))

/-- The values of the mask under the structuring element centered at
(y, x), keeping only in-bounds pixels: OpenCV erosion and dilation use
the border value that makes out-of-bounds pixels neutral
(morphologyDefaultBorderValue). -/
def neighborVals (m : Mask) (y x : Int) : List Nat :=
  kernel7.filterMap fun d =>
    if inBounds m (y + d.1) (x + d.2) then some (m.val (y + d.1) (x + d.2))
    else none

/-- Erosion by the elliptical kernel: minimum of the covered in-bounds
values (255 is the neutral initial value; mask values are at most 255). -/
def erode (m : Mask) : Mask :=
  { h := m.h, w := m.w, val := fun y x => (neighborVals m y x).foldl min 255 }

/-- Dilation by the elliptical kernel: maximum of the covered in-bounds
values (the kernel is symmetric, so mirroring it is the identity). -/
def dilate (m : Mask) : Mask :=
  { h := m.h, w := m.w, val := fun y x => (neighborVals m y x).foldl max 0 }

/-- Line 76: cv2.morphologyEx(fgmask, cv2.MORPH_OPEN, kernel,
iterations=2) erodes twice and then dilates twice. -/
def morphOpen (m : Mask) : Mask := dilate (dilate (erode (erode m)))

/-- Line 77: cv2.morphologyEx(fgmask, cv2.MORPH_CLOSE, kernel,
iterations=2) dilates twice and then erodes twice. -/
def morphClose (m : Mask) : Mask := erode (erode (dilate (dilate m)))

/-- Lines 73-79: the raw mask from fgbg.apply is passed directly through
opening and closing; no thresholding step exists between line 73 and the
contour extraction of line 79. -/
def processMask (m : Mask) : Mask := morphClose (morphOpen m)

/-- The mask of dimensions h x w whose every pixel has value v. -/
def constMask (h w v : Nat) : Mask := { h := h, w := w, val := fun _ _ => v }

/-- Every in-bounds pixel of the mask has value c. -/
def ConstOn (m : Mask) (c : Nat) : Prop :=
  ∀ y x : Int, inBounds m y x → m.val y x = c

/-- Line 79: cv2.findContours treats every nonzero pixel of the mask it
receives as foreground, so an external contour (a blob) is extracted
exactly when some in-bounds pixel is nonzero. -/
def hasForegroundPixel (m : Mask) : Prop :=
  ∃ y x : Int, inBounds m y x ∧ m.val y x ≠ 0

/-- C4: when the video cannot be opened the pipeline returns the
negative sentinel -1, and every successful run returns a nonnegative
count, so a nonnegative result means processing succeeded. -/
theorem C4_theorem :
    (∀ frame_height : Nat, count_ocean_waves_web frame_height none = -1) ∧
    (∀ (frame_height : Nat) (frames : List (List Contour × ℚ)),
      0 ≤ count_ocean_waves_web frame_height (some frames)) := by
  constructor
  · intro _; rfl
  · intro _ _; exact Int.natCast_nonneg _

/-- C5 counterexample: failure is signalled by encoding the sentinel -1
into the very same integer return value that carries counts, so the
claimed tagged, non-sentinel error channel does not exist in the code. -/
theorem C5_counterexample :
    count_ocean_waves_web 100 none = -1 ∧ count_ocean_waves_web 100 none < 0 := by
  exact ⟨rfl, by decide⟩

/-- C5 amended: open-failure is reported as the negative sentinel -1 in
the same integer channel as counts; successful results are always
nonnegative, so callers distinguish failure from success by sign, not by
a separate tag. -/
theorem C5_theorem :
    ∀ frame_height : Nat,
      count_ocean_waves_web frame_height none < 0 ∧
      ∀ frames : List (List Contour × ℚ),
        0 ≤ count_ocean_waves_web frame_height (some frames) := by
  intro _
  exact ⟨by show (-1 : Int) < 0; decide, fun _ => Int.natCast_nonneg _⟩

/-- C7: a video that opens but yields zero readable frames produces a
wave count of exactly 0. -/
theorem C7_theorem :
    ∀ frame_height : Nat, count_ocean_waves_web frame_height (some []) = 0 := by
  intro _; rfl

/-- C8: the detector step never decreases wave_count, so wave_count is
monotonically non-decreasing over the frame sequence. -/
theorem C8_theorem :
    ∀ (s : DetectorState) (signal : Bool) (now : ℚ),
      s.wave_count ≤ (waveStep s signal now).wave_count := by
  intro s signal now
  simp only [waveStep]
  split_ifs <;> simp [Nat.le_succ]

/-- C6: the size thresholds of lines 84 and 88 are inclusive lower
bounds: a contour with area exactly 1000 and width exactly 50 passes the
filter, while area 999 or width 49 is discarded. -/
theorem C6_theorem :
    ∀ c : Contour,
      (c.area = 1000 → c.w = 50 → passesFilter c = true) ∧
      (c.area = 999 → passesFilter c = false) ∧
      (c.w = 49 → passesFilter c = false) := by
  intro c
  refine ⟨?_, ?_, ?_⟩
  · intro ha hw
    simp [passesFilter, ha, hw]
  · intro ha
    simp [passesFilter, ha]
    norm_num
  · intro hw
    simp [passesFilter, hw]

/-- Witness for C6 at concrete contours: area 1000 and width 50 is kept,
area 999 is discarded, width 49 is discarded. -/
theorem C6_witness :
    passesFilter { area := 1000, x := 0, y := 0, w := 50, h := 4 } = true ∧
    passesFilter { area := 999, x := 0, y := 0, w := 300, h := 4 } = false ∧
    passesFilter { area := 5000, x := 0, y := 0, w := 49, h := 4 } = false :=
  ⟨(C6_theorem _).1 rfl rfl, (C6_theorem _).2.1 rfl, (C6_theorem _).2.2 rfl⟩

/-- C10: the cooldown comparison of line 101 is strict.  In WAITING,
a detection whose elapsed time since last_wave_time is exactly the
cooldown leaves the state unchanged and emits no count; a count is
emitted only when strictly more than the cooldown has elapsed. -/
theorem C10_theorem :
    ∀ (s : DetectorState) (now : ℚ),
      (s.wave_state = 0 → now - s.last_wave_time = cooldown →
        waveStep s true now = s) ∧
      (s.wave_state = 0 →
        (waveStep s true now).wave_count ≠ s.wave_count →
        now - s.last_wave_time > cooldown) := by
  intro s now
  constructor
  · intro hs ht
    simp [waveStep, hs, ht]
  · intro hs hc
    by_contra hgt
    simp [waveStep, hs, hgt] at hc

/-- Witness for C10: at state (WAITING, count 3, last event at 5,
frames 2) a detection at time 6 (elapsed exactly 1 = cooldown) changes
nothing, and at last event 4 the emitted count certifies that 6 - 4
strictly exceeds the cooldown. -/
theorem C10_witness :
    waveStep { wave_state := 0, wave_count := 3, last_wave_time := 5,
               frames_since_last_detection := 2 } true 6 =
      { wave_state := 0, wave_count := 3, last_wave_time := 5,
        frames_since_last_detection := 2 } ∧
    (6 : ℚ) - 4 > cooldown :=
  ⟨(C10_theorem _ 6).1 rfl (by norm_num [cooldown]),
   (C10_theorem { wave_state := 0, wave_count := 3, last_wave_time := 4,
                  frames_since_last_detection := 2 } 6).2 rfl
     (by norm_num [waveStep, cooldown])⟩

/-- The detector step preserves stateInv. -/
theorem waveStep_stateInv (s : DetectorState) (signal : Bool) (now : ℚ)
    (h : stateInv s) : stateInv (waveStep s signal now) := by
  obtain ⟨h1, h2⟩ := h
  simp only [stateInv, waveStep, debounce_frames] at *
  split_ifs <;> simp_all <;> omega

/-- The detector loop preserves stateInv from any starting state. -/
theorem runDetectorFrom_stateInv (l : List (Bool × ℚ)) :
    ∀ s : DetectorState, stateInv s → stateInv (runDetectorFrom s l) := by
  induction l with
  | nil => intro s hs; exact hs
  | cons p t ih =>
      intro s hs
      exact ih (waveStep s p.1 p.2) (waveStep_stateInv s p.1 p.2 hs)

/-- C9: on every reachable detector state the debounce counter is at
most debounce_frames = 10, and the step acts exactly as described: in
COUNTING a detected frame resets the counter to 0, an undetected frame
increments it and leaves COUNTING exactly when it reaches 10, in WAITING
a detection past the cooldown resets it to 0 together with the count
update, and an undetected frame changes nothing. -/
theorem C9_theorem :
    ∀ (l : List (Bool × ℚ)) (c f : Nat) (t now : ℚ),
      debounce_frames = 10 ∧
      (runDetector l).frames_since_last_detection ≤ 10 ∧
      waveStep { wave_state := 1, wave_count := c, last_wave_time := t,
                 frames_since_last_detection := f } true now =
        { wave_state := 1, wave_count := c, last_wave_time := t,
          frames_since_last_detection := 0 } ∧
      waveStep { wave_state := 1, wave_count := c, last_wave_time := t,
                 frames_since_last_detection := f } false now =
        (if f + 1 ≥ 10 then
          { wave_state := 0, wave_count := c, last_wave_time := t,
            frames_since_last_detection := f + 1 }
        else
          { wave_state := 1, wave_count := c, last_wave_time := t,
            frames_since_last_detection := f + 1 }) ∧
      waveStep { wave_state := 0, wave_count := c, last_wave_time := t,
                 frames_since_last_detection := f } true now =
        (if now - t > cooldown then
          { wave_state := 1, wave_count := c + 1, last_wave_time := now,
            frames_since_last_detection := 0 }
        else
          { wave_state := 0, wave_count := c, last_wave_time := t,
            frames_since_last_detection := f }) ∧
      waveStep { wave_state := 0, wave_count := c, last_wave_time := t,
                 frames_since_last_detection := f } false now =
        { wave_state := 0, wave_count := c, last_wave_time := t,
          frames_since_last_detection := f } := by
  intro l c f t now
  refine ⟨rfl, ?_, ?_, ?_, ?_, ?_⟩
  · have h := runDetectorFrom_stateInv l initState
      (by constructor <;> simp [initState, debounce_frames])
    exact h.1
  · rfl
  · simp only [waveStep, debounce_frames]
    norm_num
  · simp only [waveStep]
    norm_num
  · rfl

/-- Folding the detector over an appended list runs the two parts in
sequence. -/
theorem runDetectorFrom_append (s : DetectorState) (a b : List (Bool × ℚ)) :
    runDetectorFrom s (a ++ b) = runDetectorFrom (runDetectorFrom s a) b := by
  simp only [runDetectorFrom, List.foldl_append]

/-- In COUNTING with debounce counter 0, detected frames leave the state
fixed (line 113 resets the counter to its current value 0). -/
theorem counting_all_true (l : List (Bool × ℚ)) :
    ∀ s : DetectorState, s.wave_state = 1 →
      s.frames_since_last_detection = 0 →
      (∀ p ∈ l, p.1 = true) → runDetectorFrom s l = s := by
  induction l with
  | nil => intro s _ _ _; rfl
  | cons p t ih =>
      intro s hs hf hl
      have hp : p.1 = true := hl p (List.mem_cons_self p t)
      have hstep : waveStep s p.1 p.2 = s := by
        obtain ⟨ws, c, lt, f⟩ := s
        simp only [DetectorState.mk.injEq] at *
        subst hs; subst hf
        simp [waveStep, hp]
      show runDetectorFrom (waveStep s p.1 p.2) t = s
      rw [hstep]
      exact ih s hs hf fun q hq => hl q (List.mem_cons_of_mem p hq)

/-- In WAITING, undetected frames change nothing (lines 98-105 only act
on a detection). -/
theorem waiting_all_false (l : List (Bool × ℚ)) :
    ∀ s : DetectorState, s.wave_state = 0 →
      (∀ p ∈ l, p.1 = false) → runDetectorFrom s l = s := by
  induction l with
  | nil => intro s _ _; rfl
  | cons p t ih =>
      intro s hs hl
      have hp : p.1 = false := hl p (List.mem_cons_self p t)
      have hstep : waveStep s p.1 p.2 = s := by
        obtain ⟨ws, c, lt, f⟩ := s
        simp only [DetectorState.mk.injEq] at *
        subst hs
        simp [waveStep, hp]
      show runDetectorFrom (waveStep s p.1 p.2) t = s
      rw [hstep]
      exact ih s hs fun q hq => hl q (List.mem_cons_of_mem p hq)

/-- In COUNTING, a run of undetected frames short enough to keep the
debounce counter below debounce_frames only advances the counter
(lines 108-111, with line 110 never firing). -/
theorem counting_false_short (l : List (Bool × ℚ)) :
    ∀ s : DetectorState, s.wave_state = 1 →
      (∀ p ∈ l, p.1 = false) →
      s.frames_since_last_detection + l.length < debounce_frames →
      runDetectorFrom s l =
        { s with frames_since_last_detection :=
            s.frames_since_last_detection + l.length } := by
  induction l with
  | nil => intro s _ _ _; rfl
  | cons p t ih =>
      intro s hs hl hlen
      have hp : p.1 = false := hl p (List.mem_cons_self p t)
      obtain ⟨ws, c, lt, f⟩ := s
      simp only [DetectorState.mk.injEq] at *
      subst hs
      have hf1 : ¬ (f + 1 ≥ debounce_frames) := by
        simp only [List.length_cons] at hlen
        omega
      have hstep : waveStep ⟨1, c, lt, f⟩ p.1 p.2 = ⟨1, c, lt, f + 1⟩ := by
        simp [waveStep, hp, hf1]
      show runDetectorFrom (waveStep ⟨1, c, lt, f⟩ p.1 p.2) t = _
      rw [hstep]
      have ht := ih ⟨1, c, lt, f + 1⟩ rfl
        (fun q hq => hl q (List.mem_cons_of_mem p hq))
        (show f + 1 + t.length < debounce_frames by
          simp only [List.length_cons] at hlen; omega)
      rw [ht]
      show (⟨1, c, lt, f + 1 + t.length⟩ : DetectorState) =
        ⟨1, c, lt, f + (p :: t).length⟩
      exact congrArg (DetectorState.mk 1 c lt)
        (by simp only [List.length_cons]; omega)

/-- In COUNTING, a run of undetected frames long enough to reach the
debounce threshold moves the state back to WAITING with the counter
stopped at debounce_frames, leaving count and timestamp untouched
(lines 108-111, then lines 98-105 idle). -/
theorem counting_false_long (l : List (Bool × ℚ)) :
    ∀ s : DetectorState, s.wave_state = 1 →
      (∀ p ∈ l, p.1 = false) →
      s.frames_since_last_detection < debounce_frames →
      debounce_frames ≤ s.frames_since_last_detection + l.length →
      runDetectorFrom s l =
        ⟨0, s.wave_count, s.last_wave_time, debounce_frames⟩ := by
  induction l with
  | nil =>
      intro s _ _ hlt hge
      simp only [List.length_nil, Nat.add_zero] at hge
      omega
  | cons p t ih =>
      intro s hs hl hlt hge
      have hp : p.1 = false := hl p (List.mem_cons_self p t)
      obtain ⟨ws, c, lt, f⟩ := s
      simp only [DetectorState.mk.injEq] at *
      subst hs
      by_cases hf1 : f + 1 ≥ debounce_frames
      · have hstep : waveStep ⟨1, c, lt, f⟩ p.1 p.2 = ⟨0, c, lt, f + 1⟩ := by
          simp [waveStep, hp, hf1]
        have hfeq : f + 1 = debounce_frames := by omega
        show runDetectorFrom (waveStep ⟨1, c, lt, f⟩ p.1 p.2) t = _
        rw [hstep, hfeq]
        exact waiting_all_false t ⟨0, c, lt, debounce_frames⟩ rfl
          fun q hq => hl q (List.mem_cons_of_mem p hq)
      · have hstep : waveStep ⟨1, c, lt, f⟩ p.1 p.2 = ⟨1, c, lt, f + 1⟩ := by
          simp [waveStep, hp, hf1]
        show runDetectorFrom (waveStep ⟨1, c, lt, f⟩ p.1 p.2) t = _
        rw [hstep]
        exact ih ⟨1, c, lt, f + 1⟩ rfl
          (fun q hq => hl q (List.mem_cons_of_mem p hq))
          (show f + 1 < debounce_frames by omega)
          (show debounce_frames ≤ f + 1 + t.length by
            simp only [List.length_cons] at hge; omega)

/-- C1 counterexample: a blob visible in the zone for 1 frame
(1 < debounce_frames), absent for 11 frames (beyond debounce_frames),
then visible a second time, with every frame processed at wall-clock
time 100: the code yields a final wave count of 1, not the 2 the claim
demands, because line 101 compares wall-clock times and no cooldown has
elapsed between the two appearances. -/
theorem C1_counterexample :
    count_ocean_waves_web 100 (some framesFast) = 1 ∧
    count_ocean_waves_web 100 (some framesFast) ≠ 2 := by
  have h : count_ocean_waves_web 100 (some framesFast) = 1 := by
    norm_num [count_ocean_waves_web, framesFast, gapFrames, demoBlob,
      wave_detected_in_region, passesFilter, ROI_TOP, COUNT_ZONE_TOP,
      COUNT_ZONE_BOTTOM, waveStep, initState, cooldown, debounce_frames,
      List.replicate]
  exact ⟨h, by rw [h]; decide⟩

/-- C1 amended: with the wall-clock constraints the cooldown of
line 101 imposes — the first frame time exceeds the cooldown (so the
initial detection is counted against last_wave_time = 0) and the second
appearance comes more than the cooldown after the first count — a
detection of N frames (N < debounce_frames), a gap shorter than
debounce_frames and a reappearance give a final count of 1, while a gap
of at least debounce_frames followed by a reappearance gives 2. -/
theorem C1_theorem :
    ∀ (t1 t2 t3 : ℚ) (l1 l2 l2x l3 : List (Bool × ℚ)),
      (∀ p ∈ l1, p.1 = true) → (∀ p ∈ l2, p.1 = false) →
      (∀ p ∈ l2x, p.1 = false) → (∀ p ∈ l3, p.1 = true) →
      cooldown < t1 → l1.length + 1 < debounce_frames →
      l2.length < debounce_frames → debounce_frames ≤ l2x.length →
      cooldown < t2 - t1 →
      (runDetector ((true, t1) :: (l1 ++ l2 ++ (true, t3) :: l3))).wave_count
        = 1 ∧
      (runDetector ((true, t1) :: (l1 ++ l2x ++ (true, t2) :: l3))).wave_count
        = 2 := by
  intro t1 t2 t3 l1 l2 l2x l3 h1 h2 h2x h3 ht1 hN hG hGx ht2
  have hstep1 : waveStep initState true t1 = ⟨1, 1, t1, 0⟩ := by
    simp [waveStep, initState, sub_zero, ht1]
  have hA : runDetectorFrom (⟨1, 1, t1, 0⟩ : DetectorState) l1 = ⟨1, 1, t1, 0⟩ :=
    counting_all_true l1 _ rfl rfl h1
  constructor
  · have e0 : runDetector ((true, t1) :: (l1 ++ l2 ++ (true, t3) :: l3)) =
        runDetectorFrom (waveStep initState true t1)
          (l1 ++ l2 ++ (true, t3) :: l3) := rfl
    have hB : runDetectorFrom (⟨1, 1, t1, 0⟩ : DetectorState) l2 =
        ⟨1, 1, t1, 0 + l2.length⟩ :=
      counting_false_short l2 _ rfl h2 (show 0 + l2.length < debounce_frames by omega)
    have hC : waveStep (⟨1, 1, t1, 0 + l2.length⟩ : DetectorState) true t3 =
        ⟨1, 1, t1, 0⟩ := by
      simp [waveStep]
    have e1 : runDetectorFrom (⟨1, 1, t1, 0 + l2.length⟩ : DetectorState)
        ((true, t3) :: l3) =
        runDetectorFrom (waveStep ⟨1, 1, t1, 0 + l2.length⟩ true t3) l3 := rfl
    rw [e0, hstep1, runDetectorFrom_append, runDetectorFrom_append, hA, hB,
      e1, hC, counting_all_true l3 _ rfl rfl h3]
  · have e0 : runDetector ((true, t1) :: (l1 ++ l2x ++ (true, t2) :: l3)) =
        runDetectorFrom (waveStep initState true t1)
          (l1 ++ l2x ++ (true, t2) :: l3) := rfl
    have hB : runDetectorFrom (⟨1, 1, t1, 0⟩ : DetectorState) l2x =
        ⟨0, 1, t1, debounce_frames⟩ :=
      counting_false_long l2x _ rfl h2x
        (show (0:Nat) < debounce_frames by simp [debounce_frames])
        (show debounce_frames ≤ 0 + l2x.length by omega)
    have hC : waveStep (⟨0, 1, t1, debounce_frames⟩ : DetectorState) true t2 =
        ⟨1, 2, t2, 0⟩ := by
      simp [waveStep, ht2]
    have e1 : runDetectorFrom (⟨0, 1, t1, debounce_frames⟩ : DetectorState)
        ((true, t2) :: l3) =
        runDetectorFrom (waveStep ⟨0, 1, t1, debounce_frames⟩ true t2) l3 := rfl
    rw [e0, hstep1, runDetectorFrom_append, runDetectorFrom_append, hA, hB,
      e1, hC, counting_all_true l3 _ rfl rfl h3]

/-- Witness for C1 at a concrete input: one detected frame at time 100,
a 5-frame gap and a reappearance give count 1; with an 11-frame gap and
the reappearance at time 102 (more than the cooldown after the first
count) the count is 2. -/
theorem C1_witness :
    cooldown < (100 : ℚ) ∧
    (0 : Nat) + 1 < debounce_frames ∧
    (List.replicate 5 ((false : Bool), (100 : ℚ))).length < debounce_frames ∧
    debounce_frames ≤ (List.replicate 11 ((false : Bool), (100 : ℚ))).length ∧
    cooldown < (102 : ℚ) - 100 ∧
    (runDetector ((true, (100 : ℚ)) ::
        (([] : List (Bool × ℚ)) ++ List.replicate 5 (false, 100) ++
          (true, (100 : ℚ)) :: []))).wave_count = 1 ∧
    (runDetector ((true, (100 : ℚ)) ::
        (([] : List (Bool × ℚ)) ++ List.replicate 11 (false, 100) ++
          (true, (102 : ℚ)) :: []))).wave_count = 2 := by
  have h := C1_theorem 100 102 100 [] (List.replicate 5 (false, 100))
    (List.replicate 11 (false, 100)) []
    (by intro p hp; simp at hp)
    (by intro p hp; rw [List.eq_of_mem_replicate hp])
    (by intro p hp; rw [List.eq_of_mem_replicate hp])
    (by intro p hp; simp at hp)
    (by norm_num [cooldown])
    (by simp [debounce_frames])
    (by simp [debounce_frames])
    (by simp [debounce_frames])
    (by norm_num [cooldown])
  refine ⟨by norm_num [cooldown], by simp [debounce_frames],
    by simp [debounce_frames], by simp [debounce_frames],
    by norm_num [cooldown], h.1, h.2⟩

/-- C2: the final count is not a function of the video frames alone —
the same frame content processed at different wall-clock speeds yields
different counts, because line 101 compares time.time() values.  The two
runs below share every frame (identical contour lists per frame) and
differ only in the wall-clock instant of the final frame, yet yield
counts 1 and 2. -/
theorem C2_theorem :
    framesFast.map Prod.fst = framesSlow.map Prod.fst ∧
    count_ocean_waves_web 100 (some framesFast) = 1 ∧
    count_ocean_waves_web 100 (some framesSlow) = 2 := by
  refine ⟨rfl, ?_, ?_⟩ <;>
    norm_num [count_ocean_waves_web, framesFast, framesSlow, gapFrames,
      demoBlob, wave_detected_in_region, passesFilter, ROI_TOP,
      COUNT_ZONE_TOP, COUNT_ZONE_BOTTOM, waveStep, initState, cooldown,
      debounce_frames, List.replicate]

/-- The anchor itself is a nonzero cell of the elliptical kernel. -/
theorem mem_kernel7_center : ((0 : Int), (0 : Int)) ∈ kernel7 := by decide

/-- For an in-bounds pixel, its own value is among the values covered by
the structuring element. -/
theorem self_mem_neighborVals (m : Mask) (y x : Int) (hb : inBounds m y x) :
    m.val y x ∈ neighborVals m y x := by
  unfold neighborVals
  apply List.mem_filterMap.mpr
  refine ⟨((0 : Int), (0 : Int)), mem_kernel7_center, ?_⟩
  simp [hb]

/-- On a mask that is constant on its rectangle, every covered in-bounds
value is that constant. -/
theorem neighborVals_all_eq (m : Mask) (c : Nat) (hm : ConstOn m c)
    (y x : Int) : ∀ v ∈ neighborVals m y x, v = c := by
  intro v hv
  unfold neighborVals at hv
  rcases List.mem_filterMap.mp hv with ⟨d, _, he⟩
  by_cases hb : inBounds m (y + d.1) (x + d.2)
  · rw [if_pos hb] at he
    injection he with he2
    rw [← he2]
    exact hm _ _ hb
  · rw [if_neg hb] at he
    exact absurd he (by simp)

/-- Folding min over a list of copies of c starting at c gives c. -/
theorem foldl_min_self (c : Nat) :
    ∀ t : List Nat, (∀ v ∈ t, v = c) → t.foldl min c = c := by
  intro t
  induction t with
  | nil => intro _; rfl
  | cons d t ih =>
      intro hvs
      rw [List.foldl_cons, hvs d (List.mem_cons_self d t), min_self]
      exact ih fun v hv => hvs v (List.mem_cons_of_mem d hv)

/-- Folding min with neutral initial value 255 over a nonempty list of
copies of c (with c at most 255) gives c. -/
theorem foldl_min_const (c : Nat) (hc : c ≤ 255) :
    ∀ L : List Nat, L ≠ [] → (∀ v ∈ L, v = c) → L.foldl min 255 = c := by
  intro L hL hvs
  cases L with
  | nil => exact absurd rfl hL
  | cons d t =>
      rw [List.foldl_cons, hvs d (List.mem_cons_self d t), min_eq_right hc]
      exact foldl_min_self c t fun v hv => hvs v (List.mem_cons_of_mem d hv)

/-- Folding max over a list of copies of c starting at c gives c. -/
theorem foldl_max_self (c : Nat) :
    ∀ t : List Nat, (∀ v ∈ t, v = c) → t.foldl max c = c := by
  intro t
  induction t with
  | nil => intro _; rfl
  | cons d t ih =>
      intro hvs
      rw [List.foldl_cons, hvs d (List.mem_cons_self d t), max_self]
      exact ih fun v hv => hvs v (List.mem_cons_of_mem d hv)

/-- Folding max with neutral initial value 0 over a nonempty list of
copies of c gives c. -/
theorem foldl_max_const (c : Nat) :
    ∀ L : List Nat, L ≠ [] → (∀ v ∈ L, v = c) → L.foldl max 0 = c := by
  intro L hL hvs
  cases L with
  | nil => exact absurd rfl hL
  | cons d t =>
      rw [List.foldl_cons, hvs d (List.mem_cons_self d t),
        max_eq_right (Nat.zero_le c)]
      exact foldl_max_self c t fun v hv => hvs v (List.mem_cons_of_mem d hv)

/-- Erosion preserves a constant mask value (at most 255). -/
theorem erode_constOn (m : Mask) (c : Nat) (hc : c ≤ 255)
    (hm : ConstOn m c) : ConstOn (erode m) c := by
  intro y x hb
  have hb2 : inBounds m y x := hb
  show (neighborVals m y x).foldl min 255 = c
  exact foldl_min_const c hc _
    (List.ne_nil_of_mem (self_mem_neighborVals m y x hb2))
    (neighborVals_all_eq m c hm y x)

/-- Dilation preserves a constant mask value. -/
theorem dilate_constOn (m : Mask) (c : Nat) (hm : ConstOn m c) :
    ConstOn (dilate m) c := by
  intro y x hb
  have hb2 : inBounds m y x := hb
  show (neighborVals m y x).foldl max 0 = c
  exact foldl_max_const c _
    (List.ne_nil_of_mem (self_mem_neighborVals m y x hb2))
    (neighborVals_all_eq m c hm y x)

/-- The constant mask is constant on its rectangle. -/
theorem constMask_constOn (h w v : Nat) : ConstOn (constMask h w v) v :=
  fun _ _ _ => rfl

/-- Opening then closing an all-shadow (value 127) mask leaves every
in-bounds pixel at 127: no stage of lines 73-79 removes the
shadow-tagged intermediate value. -/
theorem processMask_const127 (h w : Nat) :
    ConstOn (processMask (constMask h w 127)) 127 := by
  have h0 := constMask_constOn h w 127
  have e1 := erode_constOn _ _ (by norm_num) h0
  have e2 := erode_constOn _ _ (by norm_num) e1
  have d1 := dilate_constOn _ _ e2
  have d2 := dilate_constOn _ _ d1
  have d3 := dilate_constOn _ _ d2
  have d4 := dilate_constOn _ _ d3
  have e3 := erode_constOn _ _ (by norm_num) d4
  have e4 := erode_constOn _ _ (by norm_num) e3
  exact e4

/-- A nonempty mask whose every pixel carries the shadow value 127
still presents a nonzero pixel to the contour extraction of line 79
after morphology. -/
theorem shadow_only_mask_has_blob (h w : Nat) (hh : 0 < h) (hw : 0 < w) :
    hasForegroundPixel (processMask (constMask h w 127)) := by
  have hb : inBounds (processMask (constMask h w 127)) 0 0 := by
    refine ⟨le_refl 0, ?_, le_refl 0, ?_⟩
    · show (0 : Int) < (h : Int)
      exact_mod_cast hh
    · show (0 : Int) < (w : Int)
      exact_mod_cast hw
  refine ⟨0, 0, hb, ?_⟩
  rw [processMask_const127 h w 0 0 hb]
  decide

/-- C3 counterexample: the raw mask that is 127 (shadow) at every pixel
of a 10 x 60 frame, with no pixel at the hard-foreground value 255,
still yields a foreground blob after lines 73-79 — so it is false that
only hard-foreground pixels of the raw mask can contribute to an
extracted blob: the code never thresholds the mask. -/
theorem C3_counterexample :
    hasForegroundPixel (processMask (constMask 10 60 127)) ∧
    ∀ y x : Int, (constMask 10 60 127).val y x ≠ 255 := by
  refine ⟨shadow_only_mask_has_blob 10 60 (by decide) (by decide), ?_⟩
  intro y x
  show (127 : Nat) ≠ 255
  decide

/-- C3 amended: no thresholding at the hard-foreground level happens
between fgbg.apply and cv2.findContours; shadow-tagged (127) pixels are
nonzero and therefore survive morphology and count as foreground for
contour extraction, so a frame whose raw mask holds only shadow pixels
(none at 255) still produces a blob. -/
theorem C3_theorem (h w : Nat) (hh : 0 < h) (hw : 0 < w) :
    hasForegroundPixel (processMask (constMask h w 127)) ∧
    ∀ y x : Int, (constMask h w 127).val y x ≠ 255 := by
  refine ⟨shadow_only_mask_has_blob h w hh hw, ?_⟩
  intro y x
  show (127 : Nat) ≠ 255
  decide

/-- Witness for C3 at the concrete dimensions 10 x 60. -/
theorem C3_witness :
    (0 : Nat) < 10 ∧ (0 : Nat) < 60 ∧
    (hasForegroundPixel (processMask (constMask 10 60 127)) ∧
     ∀ y x : Int, (constMask 10 60 127).val y x ≠ 255) :=
  ⟨by decide, by decide, C3_theorem 10 60 (by decide) (by decide)⟩
